import Mathlib

/-!
# Verification of the Jarvis-Bot reminder engine

Shallow embedding, in Lean 4, of the reminder scheduling and notification
engine of the Jarvis-Bot repository, together with proofs settling the
frozen claims about its specification.

The embedded code lives in:
* `src/core/scheduler.py`  (`SchedulerManager`)
* `src/core/database.py`   (`DatabaseManager`, reminder-related operations)
* `src/core/assistant.py`  (`JarvisAssistant._parse_time_expression`)

Modelling conventions:
* Python naive `datetime` values are modelled by `PyDateTime`: a calendar
  date as a day count plus the clock fields.  Naive datetimes compare
  field-lexicographically, and `timedelta` arithmetic never crosses
  time zones, so a linear day count is a faithful date model.
* Text that the code inspects character by character (time expressions,
  repeat patterns) is modelled as `List Char`; opaque text (titles,
  descriptions, job ids) as `String`.
* The SQLite reminder table is a `List Reminder`; SQL statements become
  the corresponding list operations.  `ORDER BY ... ASC` is modelled by
  insertion sort on the ordering key.
* APScheduler triggers are modelled by the inductive `Trigger`, recording
  the constructor invoked and the arguments the code passes to it; the
  in-memory job store is a list of (job id, trigger) pairs, with
  `replace_existing=True` modelled by remove-then-append.
-/

namespace Jarvis

/-! ## Dates and times

A Python naive `datetime`, with the calendar date flattened to a day
number (days since an arbitrary epoch).  The flattening is faithful:
naive datetimes are totally ordered lexicographically by
(date, hour, minute, second, microsecond), and `timedelta(days = n)`
adds exactly `n` calendar days leaving the clock fields unchanged. -/

structure PyDateTime where
  day : Int
  hour : Nat
  minute : Nat
  second : Nat
  micro : Nat
deriving Repr, DecidableEq

/-- Python's `datetime <= datetime`: lexicographic on
(date, hour, minute, second, microsecond). -/
def dtLe (a b : PyDateTime) : Bool :=
  if a.day ≠ b.day then a.day < b.day
  else if a.hour ≠ b.hour then a.hour < b.hour
  else if a.minute ≠ b.minute then a.minute < b.minute
  else if a.second ≠ b.second then a.second < b.second
  else a.micro ≤ b.micro

/-- `d + timedelta(days = n)` on a naive datetime: the clock fields are
unchanged and the date moves by `n` days. -/
def addDays (d : PyDateTime) (n : Nat) : PyDateTime :=
  { d with day := d.day + n }

/-- `d + timedelta(hours = n)` on a valid naive datetime
(`d.hour < 24`): hours carry into days. -/
def addHours (d : PyDateTime) (n : Nat) : PyDateTime :=
  { d with day := d.day + (d.hour + n) / 24, hour := (d.hour + n) % 24 }

/-- `d + timedelta(minutes = n)` on a valid naive datetime: minutes
carry into hours, hours into days. -/
def addMinutes (d : PyDateTime) (n : Nat) : PyDateTime :=
  addHours { d with minute := (d.minute + n) % 60 } ((d.minute + n) / 60)

/-- `now.replace(hour := h, minute := m, second := 0, microsecond := 0)`. -/
def replaceHM (d : PyDateTime) (h m : Nat) : PyDateTime :=
  { d with hour := h, minute := m, second := 0, micro := 0 }

/-! ## Python string primitives used by the embedded code -/

/-- `str.lower()` (the embedded code only ever lowercases ASCII text). -/
def pyLower (s : List Char) : List Char := s.map Char.toLower

/-- `str.strip()`: remove leading and trailing whitespace. -/
def pyStrip (s : List Char) : List Char :=
  ((s.dropWhile Char.isWhitespace).reverse.dropWhile Char.isWhitespace).reverse

/-- `needle in haystack` for strings: substring containment. -/
def pyContains (hay needle : List Char) : Bool :=
  match hay with
  | [] => needle.isEmpty
  | _ :: t => needle.isPrefixOf hay || pyContains t needle

/-- `str.split()` with no argument: split on runs of whitespace,
discarding empty fragments. -/
def pySplitGo (cur : List Char) (cs : List Char) : List (List Char) :=
  match cs with
  | [] => if cur.isEmpty then [] else [cur.reverse]
  | c :: r =>
    if c.isWhitespace then
      if cur.isEmpty then pySplitGo [] r else cur.reverse :: pySplitGo [] r
    else pySplitGo (c :: cur) r

def pySplit (cs : List Char) : List (List Char) := pySplitGo [] cs

/-- `str.rstrip("s")`: remove every trailing `'s'`. -/
def rstripS (cs : List Char) : List Char :=
  (cs.reverse.dropWhile (fun c => c = 's')).reverse

/-- Decimal value of a digit string. -/
def digitsVal (ds : List Char) : Nat :=
  ds.foldl (fun acc c => 10 * acc + (c.toNat - 48)) 0

/-- Python `int(s)` on a string: optional surrounding whitespace, an
optional sign, then at least one digit; anything else raises
`ValueError`, modelled as `none`.  (Underscore digit separators, legal
in Python but irrelevant to every pattern the code meets, are not
modelled.) -/
def pyInt (s : List Char) : Option Int :=
  let t := pyStrip s
  match t with
  | '-' :: ds => if ds ≠ [] && ds.all Char.isDigit then some (-(digitsVal ds : Int)) else none
  | '+' :: ds => if ds ≠ [] && ds.all Char.isDigit then some (digitsVal ds : Int) else none
  | ds => if ds ≠ [] && ds.all Char.isDigit then some (digitsVal ds : Int) else none

/-! ## Data model: reminders, triggers, scheduler state -/

/-- A row of the `reminders` table (`database.py`, `_initialize_database`).
`repeat_pattern` is a nullable TEXT column, hence `Option (List Char)`.
The `created_at` column and the owning user's platform columns feed only
the notification dispatcher and the cleanup sweep, which the claims do
not touch; they are omitted. -/
structure Reminder where
  id : Nat
  user_id : Nat
  title : String
  description : String
  reminder_time : PyDateTime
  repeat_pattern : Option (List Char)
  is_active : Bool
  is_completed : Bool
deriving Repr, DecidableEq

/-- Python truthiness of the nullable `repeat_pattern` value:
`NULL`/`None` and the empty string are falsy. -/
def truthyPat : Option (List Char) → Bool
  | none => false
  | some s => !s.isEmpty

/-- Interval units accepted by `_create_repeat_trigger`. -/
inductive TUnit where
  | minute
  | hour
  | day
deriving Repr, DecidableEq

/-- An APScheduler trigger, as constructed by `scheduler.py`: which
constructor is invoked and with which arguments.  The cron constructors
receive only projections of `start_time` (its hour/minute, plus weekday
or day of month), so recording `start_time` itself keeps the full
information. -/
inductive Trigger where
  | date (runDate : PyDateTime)
  | cronDaily (start : PyDateTime)
  | cronWeekly (start : PyDateTime)
  | cronMonthly (start : PyDateTime)
  | interval (unit : TUnit) (n : Int) (start : Option PyDateTime)
deriving Repr, DecidableEq

/-- An entry of the in-memory APScheduler job store. -/
structure Job where
  id : String
  trigger : Trigger
deriving Repr, DecidableEq

/-- `f"reminder_{reminder_id}"`. -/
def jobId (rid : Nat) : String := "reminder_" ++ toString rid

/-- The state of a `SchedulerManager` together with its
`DatabaseManager`: the reminder table, the in-memory job store, the
running flag, and the next `AUTOINCREMENT` row id. -/
structure SchedState where
  store : List Reminder
  jobs : List Job
  running : Bool
  nextId : Nat
deriving Repr, DecidableEq

/-- `add_job(..., id = jid, replace_existing = True)`: replace any job
with the same id, never duplicate. -/
def addJobReplace (jobs : List Job) (j : Job) : List Job :=
  jobs.filter (fun j0 => j0.id ≠ j.id) ++ [j]

/-! ## `SchedulerManager._create_repeat_trigger` (scheduler.py:141-185) -/

/-- `SchedulerManager._create_repeat_trigger(repeat_pattern, start_time)`.
Lowercases the pattern; `daily`/`weekly`/`monthly` become cron triggers
anchored to `start_time`; a pattern whose lowercase form starts with
`"every"` and splits into at least three tokens with an integer second
token and a third token equal to `minute`/`hour`/`day` after stripping
trailing `'s'`s becomes an interval trigger; everything else (including
an `int()` `ValueError`, caught by the surrounding `except`) falls back
to a one-shot `DateTrigger` at `start_time`. -/
def createRepeatTrigger (repeat_pattern : List Char) (start_time : PyDateTime) : Trigger :=
  let pl := pyLower repeat_pattern
  if pl = "daily".toList then .cronDaily start_time
  else if pl = "weekly".toList then .cronWeekly start_time
  else if pl = "monthly".toList then .cronMonthly start_time
  else if "every".toList.isPrefixOf pl then
    match pySplit pl with
    | _ :: nStr :: unitStr :: _ =>
      match pyInt nStr with
      | none => .date start_time
      | some n =>
        let unit := rstripS unitStr
        if unit = "minute".toList then .interval .minute n (some start_time)
        else if unit = "hour".toList then .interval .hour n (some start_time)
        else if unit = "day".toList then .interval .day n (some start_time)
        else .date start_time
    | _ => .date start_time
  else .date start_time

/-! ## `SchedulerManager.create_reminder` (scheduler.py:74-139) -/

/-- The `reminder_data` dict passed to `create_reminder`.  `dict.get`
yields `None` for an absent key, so each field is an `Option`; the
claims concern string-valued `reminder_time` inputs, so that field is a
string (the `isinstance` branch for an already-parsed datetime is not
needed by any claim). -/
structure ReminderData where
  user_id : Option Nat
  title : Option String
  description : Option String
  reminder_time : Option String
  repeat_pattern : Option (List Char)

/-- Python truthiness of the fields checked by
`all([user_id, title, reminder_time_str])`. -/
def truthyNat : Option Nat → Bool
  | none => false
  | some n => n ≠ 0

def truthyStr : Option String → Bool
  | none => false
  | some s => !s.isEmpty

/-- The dict returned by `create_reminder` (the `message` key is
constant text and omitted). -/
structure CreateResult where
  success : Bool
  reminder_id : Option Nat
  scheduled_time : Option PyDateTime
  error : Option String
deriving Repr, DecidableEq

/-- `DatabaseManager.create_reminder` (database.py:246-259): INSERT a
new row with `is_active = 1`, `is_completed = 0`, returning
`lastrowid`. -/
def dbCreateReminder (st : SchedState) (user_id : Nat) (title description : String)
    (reminder_time : PyDateTime) (repeat_pattern : Option (List Char)) :
    Nat × SchedState :=
  let r : Reminder :=
    { id := st.nextId, user_id := user_id, title := title, description := description,
      reminder_time := reminder_time, repeat_pattern := repeat_pattern,
      is_active := true, is_completed := false }
  (st.nextId, { st with store := st.store ++ [r], nextId := st.nextId + 1 })

/-- `SchedulerManager.create_reminder(reminder_data)`.  `parseIso`
stands for `datetime.fromisoformat`, an oracle for the standard
library's ISO-8601 parser (`none` models its `ValueError`). -/
def createReminder (parseIso : String → Option PyDateTime)
    (st : SchedState) (data : ReminderData) : CreateResult × SchedState :=
  if !(truthyNat data.user_id && truthyStr data.title && truthyStr data.reminder_time) then
    ({ success := false, reminder_id := none, scheduled_time := none,
       error := some "Missing required fields" }, st)
  else
    match data.reminder_time with
    | none =>
      ({ success := false, reminder_id := none, scheduled_time := none,
         error := some "Missing required fields" }, st)
    | some ts =>
      match parseIso ts with
      | none =>
        ({ success := false, reminder_id := none, scheduled_time := none,
           error := some "Invalid datetime format" }, st)
      | some reminder_time =>
        let (rid, st1) := dbCreateReminder st (data.user_id.getD 0)
          (data.title.getD "") (data.description.getD "") reminder_time
          data.repeat_pattern
        let trigger :=
          if truthyPat data.repeat_pattern then
            createRepeatTrigger (data.repeat_pattern.getD []) reminder_time
          else
            .date reminder_time
        let st2 := { st1 with jobs := addJobReplace st1.jobs ⟨jobId rid, trigger⟩ }
        ({ success := true, reminder_id := some rid, scheduled_time := some reminder_time,
           error := none }, st2)

/-! ## `SchedulerManager._execute_reminder` (scheduler.py:187-223) -/

/-- The SELECT in `_execute_reminder`: the first row with the given id
that is active (the JOIN against `users` only adds the delivery columns
consumed by the notification dispatcher, which is outside the claims). -/
def findActiveReminder (store : List Reminder) (rid : Nat) : Option Reminder :=
  store.find? (fun r => r.id = rid && r.is_active)

/-- `DatabaseManager.complete_reminder` (database.py:277-288):
`UPDATE reminders SET is_completed = 1 WHERE id = ?`. -/
def completeReminder (store : List Reminder) (rid : Nat) : List Reminder :=
  store.map (fun r => if r.id = rid then { r with is_completed := true } else r)

/-- `scheduler.remove_job(jid)` wrapped in `try/except`: drop the job if
present, tolerate absence. -/
def removeJob (jobs : List Job) (jid : String) : List Job :=
  jobs.filter (fun j => j.id ≠ jid)

/-- `SchedulerManager._execute_reminder(reminder_id)`, the state change
on firing.  Sending the notification touches no engine state.  If the
row is missing or inactive the handler returns with no change; if the
fetched row's `repeat_pattern` is falsy (`NULL` or `''`) the reminder is
marked completed and its job removed; otherwise nothing changes and the
recurring trigger stays registered. -/
def executeReminder (st : SchedState) (rid : Nat) : SchedState :=
  match findActiveReminder st.store rid with
  | none => st
  | some r =>
    if truthyPat r.repeat_pattern then st
    else { st with store := completeReminder st.store rid,
                   jobs := removeJob st.jobs (jobId rid) }

/-! ## `SchedulerManager.cancel_reminder` (scheduler.py:339-363) -/

/-- The dict returned by `cancel_reminder`. -/
structure CancelResult where
  success : Bool
  message : Option String
  error : Option String
deriving Repr, DecidableEq

/-- `SchedulerManager.cancel_reminder(reminder_id)`: UPDATE setting
`is_active = 0` on every row with the id (a no-row match is not
detected), remove the job if present, and return success
unconditionally. -/
def cancelReminder (st : SchedState) (rid : Nat) : CancelResult × SchedState :=
  ({ success := true, message := some "Reminder cancelled successfully", error := none },
   { st with
      store := st.store.map (fun r => if r.id = rid then { r with is_active := false } else r),
      jobs := removeJob st.jobs (jobId rid) })

/-! ## `SchedulerManager.__init__` / `start` (scheduler.py:21-63) -/

/-- A freshly constructed `SchedulerManager` over a database holding
`store`: the `MemoryJobStore` starts empty and the scheduler is not
running. -/
def freshManager (store : List Reminder) (nextId : Nat) : SchedState :=
  { store := store, jobs := [], running := false, nextId := nextId }

/-- `SchedulerManager.start()`: if not yet running, start the scheduler
and register the periodic cleanup job (`IntervalTrigger(hours = 24)`,
id `cleanup_reminders`, `replace_existing = True`).  No reminder is
read back from the database. -/
def start (st : SchedState) : SchedState :=
  if st.running then st
  else { st with running := true,
                 jobs := addJobReplace st.jobs ⟨"cleanup_reminders", .interval .hour 24 none⟩ }

/-! ## Listings (scheduler.py:309-337, database.py:372-389) -/

/-- Insertion maintaining ascending `reminder_time` order. -/
def insertByTime (r : Reminder) : List Reminder → List Reminder
  | [] => [r]
  | x :: xs =>
    if dtLe r.reminder_time x.reminder_time then r :: x :: xs
    else x :: insertByTime r xs

/-- `ORDER BY reminder_time ASC`. -/
def sortByTime (l : List Reminder) : List Reminder :=
  l.foldr insertByTime []

/-- `DatabaseManager.get_user_reminders(user_id, active_only)`
(database.py:372-389): rows with the owner, restricted to
`is_active = 1 AND is_completed = 0` when `active_only`, ordered by
`reminder_time` ascending. -/
def dbGetUserReminders (store : List Reminder) (user_id : Nat) (active_only : Bool) :
    List Reminder :=
  sortByTime (store.filter (fun r =>
    r.user_id = user_id && (!active_only || (r.is_active && !r.is_completed))))

/-- What `ORDER BY reminder_time ASC` promises: every element is
`dtLe`-below all later ones. -/
def sortedByTime (l : List Reminder) : Prop :=
  l.Pairwise (fun x y => dtLe x.reminder_time y.reminder_time = true)

/-- The `job_status` decoration added by
`SchedulerManager.get_user_reminders`. -/
def jobStatus (jobs : List Job) (rid : Nat) : String :=
  if jobs.any (fun j => j.id = jobId rid) then "scheduled" else "not_scheduled"

/-- `SchedulerManager.get_user_reminders(user_id)` (scheduler.py:309-337):
rows with the owner and `is_active = 1` — completion is *not* filtered —
ordered by `reminder_time` ascending, each decorated with its job
status.  (The `next_run_time` decoration is omitted.) -/
def schedGetUserReminders (st : SchedState) (user_id : Nat) :
    List (Reminder × String) :=
  (sortByTime (st.store.filter (fun r => r.user_id = user_id && r.is_active))).map
    (fun r => (r, jobStatus st.jobs r.id))

/-! ## The Time Resolver: `JarvisAssistant._parse_time_expression`
(assistant.py:551-639)

The clock-time regex the code searches for is
`(\d{1,2}(?::\d{2})?\s*(?:am|pm))`.  `re.search` returns the leftmost
match; at a given position the match is attempted with Python's
backtracking semantics: one or two digits (greedily two), then the
optional `:\d{2}` group (greedily taken), then greedy whitespace, then
`am` or `pm`.  Greedy whitespace never needs backtracking here because
`am|pm` cannot start with a whitespace character. -/

/-- Consume a maximal run of whitespace (`\s*`). -/
def munchSpace : List Char → List Char × List Char
  | [] => ([], [])
  | c :: r =>
    if c.isWhitespace then
      let (s, r') := munchSpace r
      (c :: s, r')
    else ([], c :: r)

/-- Match `am` or `pm` at the head. -/
def matchAmPm : List Char → Option (List Char × List Char)
  | 'a' :: 'm' :: r => some (['a', 'm'], r)
  | 'p' :: 'm' :: r => some (['p', 'm'], r)
  | _ => none

/-- Match `:\d{2}` at the head. -/
def matchColonMM : List Char → Option (List Char × List Char)
  | ':' :: a :: b :: r =>
    if a.isDigit && b.isDigit then some ([':', a, b], r) else none
  | _ => none

/-- Having consumed the digits `ds`, finish the time regex on `rest`:
first try the optional colon group, backtracking to the group-skipped
alternative if the remainder then fails; return the full matched text. -/
def matchTimeTail (ds rest : List Char) : Option (List Char) :=
  (match matchColonMM rest with
   | some (cg, r1) =>
     let (sp, r2) := munchSpace r1
     (matchAmPm r2).map (fun x => ds ++ cg ++ sp ++ x.1)
   | none => none) <|>
  (let (sp, r2) := munchSpace rest
   (matchAmPm r2).map (fun x => ds ++ sp ++ x.1))

/-- Attempt the time regex anchored at the head of `cs`: `\d{1,2}`
greedily (two digits first, backtracking to one). -/
def matchTimeAt (cs : List Char) : Option (List Char) :=
  match cs with
  | [] => none
  | a :: rest =>
    if a.isDigit then
      match rest with
      | b :: rest2 =>
        if b.isDigit then matchTimeTail [a, b] rest2 <|> matchTimeTail [a] rest
        else matchTimeTail [a] rest
      | [] => matchTimeTail [a] []
    else none

/-- `re.search` for the time regex: leftmost match, as matched text. -/
def searchTime : List Char → Option (List Char)
  | [] => none
  | c :: r => matchTimeAt (c :: r) <|> searchTime r

/-! `datetime.strptime(s, "%I:%M%p")` / `"%I%p"`.  CPython compiles the
directives to the regex fragments `%I ↦ (1[0-2]|0[1-9]|[1-9])`,
`%M ↦ ([0-5]\d|\d)`, `%p ↦ (am|pm)` (case-insensitively; the input here
is already lowercased) and requires the whole string to be consumed,
raising `ValueError` otherwise.  Alternatives are tried left to right
with backtracking, modelled by candidate lists searched in order. -/

/-- Candidates for `%I` (hour 1-12), in regex alternation order. -/
def hourCands (cs : List Char) : List (Nat × List Char) :=
  (match cs with
   | '1' :: c :: r =>
     if c = '0' || c = '1' || c = '2' then [(10 + (c.toNat - 48), r)] else []
   | _ => []) ++
  (match cs with
   | '0' :: c :: r => if c.isDigit && c ≠ '0' then [(c.toNat - 48, r)] else []
   | _ => []) ++
  (match cs with
   | c :: r => if c.isDigit && c ≠ '0' then [(c.toNat - 48, r)] else []
   | _ => [])

/-- Candidates for `%M` (minute 0-59), in regex alternation order. -/
def minuteCands (cs : List Char) : List (Nat × List Char) :=
  (match cs with
   | a :: b :: r =>
     if '0' ≤ a && a ≤ '5' && b.isDigit then [(10 * (a.toNat - 48) + (b.toNat - 48), r)] else []
   | _ => []) ++
  (match cs with
   | a :: r => if a.isDigit then [(a.toNat - 48, r)] else []
   | _ => [])

/-- Candidates for `%p`: `true` means pm. -/
def pmCands (cs : List Char) : List (Bool × List Char) :=
  match cs with
  | 'a' :: 'm' :: r => [(false, r)]
  | 'p' :: 'm' :: r => [(true, r)]
  | _ => []

/-- `struct_time` hour from `%I` and `%p`: 12-hour to 24-hour clock. -/
def hour24 (i : Nat) (pm : Bool) : Nat := i % 12 + if pm then 12 else 0

/-- `datetime.strptime(cs, "%I:%M%p")`, entire input consumed;
returns (hour in 0-23, minute). -/
def strptimeIMp (cs : List Char) : Option (Nat × Nat) :=
  (hourCands cs).findSome? (fun hc =>
    match hc.2 with
    | ':' :: r2 =>
      (minuteCands r2).findSome? (fun mc =>
        (pmCands mc.2).findSome? (fun pc =>
          if pc.2 = [] then some (hour24 hc.1 pc.1, mc.1) else none))
    | _ => none)

/-- `datetime.strptime(cs, "%I%p")`, entire input consumed;
returns the hour in 0-23 (minute 0). -/
def strptimeIp (cs : List Char) : Option Nat :=
  (hourCands cs).findSome? (fun hc =>
    (pmCands hc.2).findSome? (fun pc =>
      if pc.2 = [] then some (hour24 hc.1 pc.1) else none))

/-- The shared body of the three clock-time branches: on the matched
text, `time_str.replace(' ', '')` then strptime with `%I:%M%p` when the
text contains a colon, else `%I%p`; `none` models the caught
`ValueError`. -/
def timeFromMatch (matched : List Char) : Option (Nat × Nat) :=
  let ts := matched.filter (fun c => c ≠ ' ')
  if ts.contains ':' then strptimeIMp ts
  else (strptimeIp ts).map (fun h => (h, 0))

/-! The relative regex `in (\d+)\s*(minute|hour|day)s?`: literal
`"in "`, then one or more digits (greedy), greedy whitespace, then the
unit alternation.  No backtracking can help a failed greedy run here
(after maximal digits the next char is not a digit, after maximal
whitespace the unit words cannot start with whitespace), so maximal
munch is exact. -/

/-- Attempt the relative regex anchored at the head. -/
def matchRelAt (cs : List Char) : Option (Nat × TUnit) :=
  match cs with
  | 'i' :: 'n' :: ' ' :: r =>
    let ds := r.takeWhile Char.isDigit
    if ds.isEmpty then none
    else
      let r2 := (munchSpace (r.dropWhile Char.isDigit)).2
      if "minute".toList.isPrefixOf r2 then some (digitsVal ds, .minute)
      else if "hour".toList.isPrefixOf r2 then some (digitsVal ds, .hour)
      else if "day".toList.isPrefixOf r2 then some (digitsVal ds, .day)
      else none
  | _ => none

/-- `re.search` for the relative regex: leftmost match. -/
def searchRel : List Char → Option (Nat × TUnit)
  | [] => none
  | c :: r => matchRelAt (c :: r) <|> searchRel r

/-- `now + timedelta(minutes|hours|days = amount)`. -/
def addRel (now : PyDateTime) (amount : Nat) : TUnit → PyDateTime
  | .minute => addMinutes now amount
  | .hour => addHours now amount
  | .day => addDays now amount

/-- `JarvisAssistant._parse_time_expression(time_text)` with
`datetime.now()` passed explicitly.  Mirrors the source's sequential
fall-through: empty input returns `None`; then, on the lowercased and
stripped text, the `today` branch (clock time kept on today's date, or
`now + 1 hour` when `today` carries no clock time), the `tomorrow`
branch (clock time on tomorrow's date, or tomorrow 09:00), the bare
clock-time branch (today, rolled forward one day when already passed),
the relative branch, and finally the default fallback `now + 1 hour`.
A branch whose regex matched but whose strptime failed falls through to
the next branch (`except: pass`). -/
def parseTimeExpression (time_text : List Char) (now : PyDateTime) : Option PyDateTime :=
  if time_text.isEmpty then none
  else
    let t := pyStrip (pyLower time_text)
    let step3 : Option PyDateTime :=
      match (searchTime t).bind timeFromMatch with
      | some (h, m) =>
        let target := replaceHM now h m
        some (if dtLe target now then addDays target 1 else target)
      | none =>
        match searchRel t with
        | some (amount, unit) => some (addRel now amount unit)
        | none => some (addHours now 1)
    let step2 : Option PyDateTime :=
      if pyContains t "tomorrow".toList then
        match searchTime t with
        | some m =>
          match timeFromMatch m with
          | some (h, mi) => some (replaceHM (addDays now 1) h mi)
          | none => step3
        | none => some (replaceHM (addDays now 1) 9 0)
      else step3
    if pyContains t "today".toList then
      match searchTime t with
      | some m =>
        match timeFromMatch m with
        | some (h, mi) => some (replaceHM now h mi)
        | none => step2
      | none => some (addHours now 1)
    else step2

/-! ## Spec-side predicates and claim-family renderings

These definitions follow the specification's words, for comparison with
the behaviour of the embedded code; they are deliberately independent of
the code's own parsing. -/

/-- A unit word of the spec's `every N minute|hour|day(s)` family,
with its optional plural `s`. -/
def specUnitWord (u : List Char) : Bool :=
  u = "minute".toList || u = "minutes".toList ||
  u = "hour".toList || u = "hours".toList ||
  u = "day".toList || u = "days".toList

/-- A well-formed `every N minute|hour|day(s)` expression per the
spec's words: the word `every`, a space, one or more digits, a space,
and a unit word. -/
def specWellFormedEvery (p : List Char) : Bool :=
  match p with
  | 'e' :: 'v' :: 'e' :: 'r' :: 'y' :: ' ' :: rest =>
    !(rest.takeWhile Char.isDigit).isEmpty &&
    (match rest.dropWhile Char.isDigit with
     | ' ' :: u => specUnitWord u
     | _ => false)
  | _ => false

/-- The spec's data model (§3) for non-`none` repeat patterns:
`daily`, `weekly`, `monthly`, or `every(N, unit)`. -/
def specRecurring (p : List Char) : Bool :=
  p = "daily".toList || p = "weekly".toList || p = "monthly".toList ||
  specWellFormedEvery p

/-- The set of patterns the *code's* parser routes away from the
one-shot fallback: lowercase equal to `daily`/`weekly`/`monthly`, or
lowercase starting with `every` with at least three whitespace tokens,
an integer second token, and a third token equal to
`minute`/`hour`/`day` after stripping trailing `'s'`s. -/
def codeAcceptsPattern (p : List Char) : Bool :=
  let pl := pyLower p
  pl = "daily".toList || pl = "weekly".toList || pl = "monthly".toList ||
  ("every".toList.isPrefixOf pl &&
    (match pySplit pl with
     | _ :: nStr :: unitStr :: _ =>
       (pyInt nStr).isSome &&
       (rstripS unitStr = "minute".toList || rstripS unitStr = "hour".toList ||
        rstripS unitStr = "day".toList)
     | _ => false))

/-- The character for the digit `d`. -/
def digitChar (d : Nat) : Char := Char.ofNat (48 + d)

/-- The decimal rendering of an hour `1 ≤ h ≤ 12`, optionally
zero-padded to two digits. -/
def hourChars (pad : Bool) (h : Nat) : List Char :=
  if h < 10 then (if pad then ['0', digitChar h] else [digitChar h])
  else ['1', digitChar (h - 10)]

/-- The two-digit rendering of a minute `m < 60`. -/
def minuteChars (m : Nat) : List Char :=
  [digitChar (m / 10), digitChar (m % 10)]

/-- The expression `HH:MM(am|pm)`: a clock time with no day
qualifier. -/
def renderClock (pad : Bool) (h m : Nat) (pm : Bool) : List Char :=
  hourChars pad h ++ ':' :: minuteChars m ++ (if pm then "pm".toList else "am".toList)

/-- The expression `today at HH:MM(am|pm)`. -/
def renderToday (pad : Bool) (h m : Nat) (pm : Bool) : List Char :=
  "today at ".toList ++ renderClock pad h m pm

/-! ## Concrete fixtures for counterexamples and witnesses -/

/-- A stored reminder that is active, not completed, and one-shot. -/
def pendingReminder : Reminder :=
  { id := 1, user_id := 1, title := "t", description := "",
    reminder_time := ⟨0, 10, 0, 0, 0⟩, repeat_pattern := none,
    is_active := true, is_completed := false }

/-- A stored reminder that is active and already completed. -/
def completedReminder : Reminder :=
  { id := 1, user_id := 7, title := "t", description := "",
    reminder_time := ⟨0, 10, 0, 0, 0⟩, repeat_pattern := none,
    is_active := true, is_completed := true }

/-- A stored daily-recurring reminder. -/
def dailyReminder : Reminder :=
  { id := 2, user_id := 1, title := "d", description := "",
    reminder_time := ⟨0, 8, 0, 0, 0⟩, repeat_pattern := some "daily".toList,
    is_active := true, is_completed := false }

/-- A scheduler state holding one one-shot and one daily reminder, both
with registered jobs. -/
def twoReminderState : SchedState :=
  { store := [pendingReminder, dailyReminder],
    jobs := [⟨jobId 1, .date ⟨0, 10, 0, 0, 0⟩⟩, ⟨jobId 2, .cronDaily ⟨0, 8, 0, 0, 0⟩⟩],
    running := true, nextId := 3 }

/-! # Theorems

First general-purpose lemmas about the embedded operations, then one
theorem per claim (with its witness or counterexample where
required). -/

/-! ## Helper lemmas -/

theorem mem_completeReminder {store : List Reminder} {rid : Nat} :
    ∀ r' ∈ completeReminder store rid,
      (r'.id = rid → r'.is_completed = true) ∧ (r'.id ≠ rid → r' ∈ store) := by
  intro r' hmem
  obtain ⟨r0, hr0, heq⟩ := List.mem_map.mp hmem
  by_cases h : r0.id = rid
  · rw [if_pos h] at heq
    subst heq
    exact ⟨fun _ => rfl, fun hne => absurd h hne⟩
  · rw [if_neg h] at heq
    subst heq
    exact ⟨fun hid => absurd hid h, fun _ => hr0⟩

theorem completeReminder_idem (store : List Reminder) (rid : Nat) :
    completeReminder (completeReminder store rid) rid = completeReminder store rid := by
  unfold completeReminder
  rw [List.map_map]
  refine List.map_congr_left (fun r _ => ?_)
  by_cases h : r.id = rid <;> simp [h]

theorem not_mem_removeJob {jobs : List Job} {jid : String} :
    ∀ j ∈ removeJob jobs jid, j.id ≠ jid := by
  intro j hj
  have := List.of_mem_filter hj
  simpa using this

/-! ## C2 — restart re-registration -/

/-- C2, counterexample.  The claim says that after constructing a fresh
`SchedulerManager` over a store holding an active, non-completed
reminder and calling `start()`, that reminder has exactly one registered
timer job.  In the code, `start()` only starts the scheduler and adds
the cleanup job, and nothing ever reads the pending reminders back
(`DatabaseManager.get_pending_reminders` has no caller), so the
reminder has zero registered jobs. -/
theorem restart_reload_c2_counterexample :
    pendingReminder.is_active = true ∧ pendingReminder.is_completed = false ∧
    ((start (freshManager [pendingReminder] 2)).jobs.countP
      (fun j => j.id = jobId pendingReminder.id)) = 0 := by
  refine ⟨rfl, rfl, ?_⟩
  decide

/-- C2, amended: after constructing a fresh `SchedulerManager` and
calling `start()`, the in-memory job store contains exactly the daily
cleanup job, whatever the store holds — no reminder is re-registered
after a restart. -/
theorem restart_reload_c2_amended :
    ∀ (store : List Reminder) (n : Nat),
      (start (freshManager store n)).jobs.map Job.id = ["cleanup_reminders"] ∧
      (start (freshManager store n)).store = store := by
  intro store n
  exact ⟨rfl, rfl⟩

/-! ## C6 — cancelling a nonexistent reminder -/

/-- C6, counterexample.  The claim says `cancel_reminder(id)` on an id
absent from the store returns `{success: false, error: not_found}`.
The code never checks whether the UPDATE matched a row: on an empty
store it returns success with no error (the store is indeed
unchanged). -/
theorem cancel_not_found_c6_counterexample :
    (cancelReminder (freshManager [] 1) 99).1.success = true ∧
    (cancelReminder (freshManager [] 1) 99).1.error = none ∧
    (cancelReminder (freshManager [] 1) 99).2 = freshManager [] 1 := by
  refine ⟨rfl, rfl, ?_⟩
  decide

/-- C6, amended: for every reminder id that does not exist in the
store, `cancel_reminder(id)` returns `{success: true}` without raising,
and the stored reminders (and, when no job carries the id, the job
store) are unchanged. -/
theorem cancel_not_found_c6_amended :
    ∀ (st : SchedState) (rid : Nat),
      (∀ r ∈ st.store, r.id ≠ rid) → (∀ j ∈ st.jobs, j.id ≠ jobId rid) →
      (cancelReminder st rid).1.success = true ∧
      (cancelReminder st rid).1.error = none ∧
      (cancelReminder st rid).2.store = st.store ∧
      (cancelReminder st rid).2.jobs = st.jobs := by
  intro st rid hs hj
  refine ⟨rfl, rfl, ?_, ?_⟩
  · show st.store.map _ = st.store
    calc st.store.map (fun r => if r.id = rid then { r with is_active := false } else r)
        = st.store.map id := List.map_congr_left (fun r hr => by rw [if_neg (hs r hr)]; rfl)
      _ = st.store := List.map_id st.store
  · exact List.filter_eq_self.mpr (fun j hj' => by simp [hj j hj'])

/-- C6, witness for the amended theorem at a concrete input. -/
theorem cancel_not_found_c6_witness :
    (cancelReminder (freshManager [pendingReminder] 2) 42).1.success = true ∧
    (cancelReminder (freshManager [pendingReminder] 2) 42).1.error = none ∧
    (cancelReminder (freshManager [pendingReminder] 2) 42).2.store = [pendingReminder] ∧
    (cancelReminder (freshManager [pendingReminder] 2) 42).2.jobs = [] :=
  cancel_not_found_c6_amended (freshManager [pendingReminder] 2) 42
    (by decide) (by decide)

/-! ## C9 — creation validation -/

/-- C9, confirmed.  A creation request missing a (truthy) owner, title,
or target time, or whose target-time string the ISO-8601 parser
rejects, synchronously yields `{success: false, error}` with the state
(in particular the store) unchanged; a request with all three fields
and a parsable time yields `{success: true}` with the new row id and
the parsed scheduled time, and persists exactly one new reminder. -/
theorem create_validation_c9 :
    ∀ (parseIso : String → Option PyDateTime) (st : SchedState) (data : ReminderData),
      ((truthyNat data.user_id && truthyStr data.title && truthyStr data.reminder_time)
          = false →
        (createReminder parseIso st data).1.success = false ∧
        (createReminder parseIso st data).1.error = some "Missing required fields" ∧
        (createReminder parseIso st data).2 = st) ∧
      (∀ s, data.reminder_time = some s → parseIso s = none →
        (truthyNat data.user_id && truthyStr data.title && truthyStr data.reminder_time)
          = true →
        (createReminder parseIso st data).1.success = false ∧
        (createReminder parseIso st data).1.error = some "Invalid datetime format" ∧
        (createReminder parseIso st data).2 = st) ∧
      (∀ s t, data.reminder_time = some s → parseIso s = some t →
        (truthyNat data.user_id && truthyStr data.title && truthyStr data.reminder_time)
          = true →
        (createReminder parseIso st data).1.success = true ∧
        (createReminder parseIso st data).1.reminder_id = some st.nextId ∧
        (createReminder parseIso st data).1.scheduled_time = some t ∧
        (createReminder parseIso st data).1.error = none ∧
        ∃ r : Reminder,
          (createReminder parseIso st data).2.store = st.store ++ [r] ∧
          r.id = st.nextId ∧ r.user_id = data.user_id.getD 0 ∧
          r.reminder_time = t ∧ r.repeat_pattern = data.repeat_pattern ∧
          r.is_active = true ∧ r.is_completed = false) := by
  intro parseIso st data
  refine ⟨fun h => ?_, fun s hs hp h => ?_, fun s t hs hp h => ?_⟩
  · simp [createReminder, h]
  · rw [hs] at h
    simp [createReminder, hs, hp, h]
  · rw [hs] at h
    simp only [createReminder, hs, hp, h, Bool.not_true, Bool.false_eq_true, if_false,
      dbCreateReminder]
    refine ⟨trivial, trivial, trivial, trivial, ?_⟩
    exact ⟨_, rfl, rfl, rfl, rfl, rfl, rfl, rfl⟩

/-- C9, witness: the spec's own creation scenario, at a concrete
parser, state, and request. -/
theorem create_validation_c9_witness :
    (createReminder (fun _ => some ⟨100, 10, 0, 0, 0⟩) (freshManager [] 1)
        { user_id := some 1, title := some "Pay bills", description := some "",
          reminder_time := some "2025-01-01T10:00:00", repeat_pattern := none }).1.success
        = true ∧
    (createReminder (fun _ => some ⟨100, 10, 0, 0, 0⟩) (freshManager [] 1)
        { user_id := some 1, title := some "Pay bills", description := some "",
          reminder_time := some "2025-01-01T10:00:00", repeat_pattern := none }).1.reminder_id
        = some 1 ∧
    (createReminder (fun _ => some ⟨100, 10, 0, 0, 0⟩) (freshManager [] 1)
        { user_id := some 1, title := some "Pay bills", description := some "",
          reminder_time := some "2025-01-01T10:00:00", repeat_pattern := none }).1.scheduled_time
        = some ⟨100, 10, 0, 0, 0⟩ := by
  have h := (create_validation_c9 (fun _ => some ⟨100, 10, 0, 0, 0⟩) (freshManager [] 1)
    { user_id := some 1, title := some "Pay bills", description := some "",
      reminder_time := some "2025-01-01T10:00:00", repeat_pattern := none }).2.2
    "2025-01-01T10:00:00" ⟨100, 10, 0, 0, 0⟩ rfl rfl (by decide)
  exact ⟨h.1, h.2.1, h.2.2.1⟩

/-! ## C10 — falsy repeat patterns behave like `none` -/

/-- C10, confirmed.  `create_reminder` gives every falsy
`repeat_pattern` (`None` or the empty string) a one-shot `DateTrigger`
at the target time, and on firing such a reminder is marked completed
and its job removed; a truthy pattern string is given the trigger
computed by `_create_repeat_trigger` and firing changes nothing (no
completion, timer left registered). -/
theorem falsy_pattern_c10 :
    (∀ (parseIso : String → Option PyDateTime) (st : SchedState) (data : ReminderData)
        (s : String) (t : PyDateTime),
      data.reminder_time = some s → parseIso s = some t →
      (truthyNat data.user_id && truthyStr data.title && truthyStr data.reminder_time)
        = true →
      ((data.repeat_pattern = none ∨ data.repeat_pattern = some []) →
        (⟨jobId st.nextId, Trigger.date t⟩ : Job) ∈ (createReminder parseIso st data).2.jobs) ∧
      (∀ p, data.repeat_pattern = some p → p ≠ [] →
        (⟨jobId st.nextId, createRepeatTrigger p t⟩ : Job)
          ∈ (createReminder parseIso st data).2.jobs)) ∧
    (∀ (st : SchedState) (rid : Nat) (r : Reminder),
      findActiveReminder st.store rid = some r →
      ((r.repeat_pattern = none ∨ r.repeat_pattern = some []) →
        (∀ r' ∈ (executeReminder st rid).store, r'.id = rid → r'.is_completed = true) ∧
        ∀ j ∈ (executeReminder st rid).jobs, j.id ≠ jobId rid) ∧
      (∀ p, r.repeat_pattern = some p → p ≠ [] → executeReminder st rid = st)) := by
  constructor
  · intro parseIso st data s t hs hp h
    rw [hs] at h
    constructor
    · intro hfalsy
      have hpat : truthyPat data.repeat_pattern = false := by
        rcases hfalsy with h1 | h1 <;> rw [h1] <;> rfl
      simp only [createReminder, hs, hp, h, Bool.not_true, Bool.false_eq_true, if_false,
        dbCreateReminder, hpat, addJobReplace]
      exact List.mem_append_right _ (List.mem_singleton.mpr rfl)
    · intro p hpat hne
      have htruthy : truthyPat (some p) = true := by simpa [truthyPat] using hne
      simp only [createReminder, hs, hp, h, Bool.not_true, Bool.false_eq_true, if_false,
        dbCreateReminder, hpat, htruthy, if_true, addJobReplace, Option.getD_some]
      exact List.mem_append_right _ (List.mem_singleton.mpr rfl)
  · intro st rid r hfind
    constructor
    · intro hfalsy
      have hpat : truthyPat r.repeat_pattern = false := by
        rcases hfalsy with h1 | h1 <;> rw [h1] <;> rfl
      simp only [executeReminder, hfind, hpat, Bool.false_eq_true, if_false]
      exact ⟨fun r' hr' => (mem_completeReminder r' hr').1, not_mem_removeJob⟩
    · intro p hpat hne
      have htruthy : truthyPat r.repeat_pattern = true := by
        rw [hpat]; simpa [truthyPat] using hne
      simp only [executeReminder, hfind, htruthy, if_true]

/-- C10, witness: at a concrete parser, state, and requests, the
`None` pattern and the empty-string pattern both register a one-shot
`DateTrigger`, while `daily` registers the `_create_repeat_trigger`
result. -/
theorem falsy_pattern_c10_witness :
    ((⟨jobId 3, Trigger.date ⟨5, 9, 0, 0, 0⟩⟩ : Job)
      ∈ (createReminder (fun _ => some ⟨5, 9, 0, 0, 0⟩) twoReminderState
          { user_id := some 1, title := some "x", description := none,
            reminder_time := some "T", repeat_pattern := none }).2.jobs) ∧
    ((⟨jobId 3, Trigger.date ⟨5, 9, 0, 0, 0⟩⟩ : Job)
      ∈ (createReminder (fun _ => some ⟨5, 9, 0, 0, 0⟩) twoReminderState
          { user_id := some 1, title := some "x", description := none,
            reminder_time := some "T", repeat_pattern := some [] }).2.jobs) ∧
    ((⟨jobId 3, createRepeatTrigger "daily".toList ⟨5, 9, 0, 0, 0⟩⟩ : Job)
      ∈ (createReminder (fun _ => some ⟨5, 9, 0, 0, 0⟩) twoReminderState
          { user_id := some 1, title := some "x", description := none,
            reminder_time := some "T", repeat_pattern := some "daily".toList }).2.jobs) := by
  have hA := falsy_pattern_c10.1 (fun _ => some ⟨5, 9, 0, 0, 0⟩) twoReminderState
    { user_id := some 1, title := some "x", description := none,
      reminder_time := some "T", repeat_pattern := none } "T" ⟨5, 9, 0, 0, 0⟩
    rfl rfl (by decide)
  have hB := falsy_pattern_c10.1 (fun _ => some ⟨5, 9, 0, 0, 0⟩) twoReminderState
    { user_id := some 1, title := some "x", description := none,
      reminder_time := some "T", repeat_pattern := some [] } "T" ⟨5, 9, 0, 0, 0⟩
    rfl rfl (by decide)
  have hC := falsy_pattern_c10.1 (fun _ => some ⟨5, 9, 0, 0, 0⟩) twoReminderState
    { user_id := some 1, title := some "x", description := none,
      reminder_time := some "T", repeat_pattern := some "daily".toList } "T" ⟨5, 9, 0, 0, 0⟩
    rfl rfl (by decide)
  exact ⟨hA.1 (Or.inl rfl), hB.1 (Or.inr rfl), hC.2 "daily".toList rfl (by decide)⟩

/-! ## C1 — completion semantics on firing -/

/-- C1, confirmed, with `repeat_pattern` ranging over the spec's data
model (§3): `none`, `daily`, `weekly`, `monthly`, or an
`every N minute|hour|day(s)` expression.  When a reminder with pattern
`none` fires, the engine marks it completed in the store (idempotently,
so at most once — and its removed timer prevents any further firing),
leaves every other row unchanged, and deregisters its timer job; when a
reminder with any of the recurring patterns fires, the engine changes
nothing: no completion flag is set and the recurring timer stays
registered. -/
theorem fire_semantics_c1 :
    ∀ (st : SchedState) (rid : Nat) (r : Reminder),
      findActiveReminder st.store rid = some r →
      (r.repeat_pattern = none →
        (∀ r' ∈ (executeReminder st rid).store,
          (r'.id = rid → r'.is_completed = true) ∧ (r'.id ≠ rid → r' ∈ st.store)) ∧
        (∀ j ∈ (executeReminder st rid).jobs, j.id ≠ jobId rid) ∧
        (∀ j ∈ st.jobs, j.id ≠ jobId rid → j ∈ (executeReminder st rid).jobs) ∧
        completeReminder (completeReminder st.store rid) rid
          = completeReminder st.store rid) ∧
      (∀ p, r.repeat_pattern = some p → specRecurring p = true →
        executeReminder st rid = st) := by
  intro st rid r hfind
  constructor
  · intro hnone
    have hpat : truthyPat r.repeat_pattern = false := by rw [hnone]; rfl
    simp only [executeReminder, hfind, hpat, Bool.false_eq_true, if_false]
    refine ⟨fun r' hr' => mem_completeReminder r' hr', not_mem_removeJob, ?_,
      completeReminder_idem st.store rid⟩
    intro j hj hne
    exact List.mem_filter.mpr ⟨hj, by simpa using hne⟩
  · intro p hpat hrec
    have hne : p ≠ [] := by
      intro hnil
      rw [hnil] at hrec
      exact absurd hrec (by decide)
    have htruthy : truthyPat r.repeat_pattern = true := by
      rw [hpat]; simpa [truthyPat] using hne
    simp only [executeReminder, hfind, htruthy, if_true]

/-! ## Ordering lemmas for the listings -/

theorem dtLe_iff (a b : PyDateTime) : dtLe a b = true ↔
    (a.day < b.day ∨ (a.day = b.day ∧ (a.hour < b.hour ∨ (a.hour = b.hour ∧
      (a.minute < b.minute ∨ (a.minute = b.minute ∧ (a.second < b.second ∨
        (a.second = b.second ∧ a.micro ≤ b.micro)))))))) := by
  unfold dtLe
  split_ifs <;> simp_all

theorem dtLe_total (a b : PyDateTime) : dtLe a b = true ∨ dtLe b a = true := by
  rw [dtLe_iff, dtLe_iff]
  omega

theorem dtLe_trans (a b c : PyDateTime) :
    dtLe a b = true → dtLe b c = true → dtLe a c = true := by
  simp only [dtLe_iff]
  omega

theorem mem_insertByTime {r a : Reminder} {l : List Reminder} :
    a ∈ insertByTime r l ↔ a = r ∨ a ∈ l := by
  induction l with
  | nil => simp [insertByTime]
  | cons x xs ih =>
    simp only [insertByTime]
    split_ifs with h
    · simp [List.mem_cons]
    · simp only [List.mem_cons, ih]
      tauto

theorem sortedByTime_insertByTime {r : Reminder} {l : List Reminder}
    (h : sortedByTime l) : sortedByTime (insertByTime r l) := by
  induction l with
  | nil => simp [insertByTime, sortedByTime]
  | cons x xs ih =>
    obtain ⟨hx, hxs⟩ := List.pairwise_cons.mp h
    simp only [insertByTime]
    split_ifs with hle
    · refine List.pairwise_cons.mpr ⟨?_, h⟩
      intro b hb
      rcases List.mem_cons.mp hb with hb | hb
      · exact hb ▸ hle
      · exact dtLe_trans _ _ _ hle (hx b hb)
    · refine List.pairwise_cons.mpr ⟨?_, ih hxs⟩
      intro b hb
      rcases mem_insertByTime.mp hb with hb | hb
      · rw [hb]
        rcases dtLe_total r.reminder_time x.reminder_time with ht | ht
        · exact absurd ht hle
        · exact ht
      · exact hx b hb

theorem sortedByTime_sortByTime (l : List Reminder) : sortedByTime (sortByTime l) := by
  induction l with
  | nil => simp [sortByTime, sortedByTime]
  | cons x xs ih => exact sortedByTime_insertByTime ih

theorem mem_sortByTime {a : Reminder} {l : List Reminder} :
    a ∈ sortByTime l ↔ a ∈ l := by
  induction l with
  | nil => simp [sortByTime]
  | cons x xs ih =>
    show a ∈ insertByTime x (sortByTime xs) ↔ _
    rw [mem_insertByTime, ih]
    simp [List.mem_cons]

/-! ## Character and parsing lemmas for the pattern and time machinery -/

theorem toLower_digit (c : Char) (h : c.isDigit = true) : c.toLower = c := by
  simp only [Char.isDigit, Bool.and_eq_true, decide_eq_true_eq] at h
  obtain ⟨h1, h2⟩ := h
  have h1' : 48 ≤ c.val.toNat := UInt32.le_toNat_of_le (by decide) h1
  have h2' : c.val.toNat ≤ 57 := UInt32.toNat_le_of_le (by decide) h2
  unfold Char.toLower
  rw [if_neg]
  intro hc
  obtain ⟨hc1, hc2⟩ := hc
  simp [Char.toNat] at hc1 hc2
  omega

theorem digit_not_ws (c : Char) (h : c.isDigit = true) : c.isWhitespace = false := by
  cases hws : c.isWhitespace with
  | false => rfl
  | true =>
    exfalso
    simp only [Char.isWhitespace, Bool.or_eq_true, decide_eq_true_eq] at hws
    rcases hws with ((h1 | h1) | h1) | h1 <;> (subst h1; exact absurd h (by decide))

theorem dropWhile_no {p : Char → Bool} {l : List Char} (h : ∀ c ∈ l, p c = false) :
    l.dropWhile p = l := by
  cases l with
  | nil => rfl
  | cons c cs =>
    rw [List.dropWhile_cons, h c (List.mem_cons_self c cs)]
    simp

theorem pyStrip_no_ws {s : List Char} (h : ∀ c ∈ s, c.isWhitespace = false) :
    pyStrip s = s := by
  unfold pyStrip
  rw [dropWhile_no h, dropWhile_no, List.reverse_reverse]
  intro c hc
  exact h c (List.mem_reverse.mp hc)

theorem pySplitGo_no_ws (t : List Char) (h : ∀ c ∈ t, c.isWhitespace = false) :
    ∀ (cur cs : List Char), pySplitGo cur (t ++ cs) = pySplitGo (t.reverse ++ cur) cs := by
  induction t with
  | nil => intro cur cs; simp
  | cons c t' ih =>
    intro cur cs
    rw [List.cons_append]
    show pySplitGo cur (c :: (t' ++ cs)) = _
    rw [pySplitGo]
    rw [h c (List.mem_cons_self c t')]
    simp only [Bool.false_eq_true, if_false]
    rw [ih (fun x hx => h x (List.mem_cons_of_mem c hx)) (c :: cur) cs]
    simp [List.reverse_cons, List.append_assoc]

theorem pySplit_token_space (t rest : List Char) (h1 : t ≠ [])
    (h2 : ∀ c ∈ t, c.isWhitespace = false) :
    pySplit (t ++ ' ' :: rest) = t :: pySplit rest := by
  unfold pySplit
  rw [pySplitGo_no_ws t h2 [] (' ' :: rest), List.append_nil]
  rw [pySplitGo]
  have hne : t.reverse.isEmpty = false := by
    cases ht : t.reverse with
    | nil => exact absurd (List.reverse_eq_nil_iff.mp ht) h1
    | cons a b => rfl
  simp [hne]

theorem pySplit_token (t : List Char) (h1 : t ≠ [])
    (h2 : ∀ c ∈ t, c.isWhitespace = false) :
    pySplit t = [t] := by
  unfold pySplit
  have := pySplitGo_no_ws t h2 [] []
  rw [List.append_nil, List.append_nil] at this
  rw [this, pySplitGo]
  have hne : t.reverse.isEmpty = false := by
    cases ht : t.reverse with
    | nil => exact absurd (List.reverse_eq_nil_iff.mp ht) h1
    | cons a b => rfl
  simp [hne]

theorem pyInt_digits (ds : List Char) (h1 : ds ≠ [])
    (h2 : ∀ c ∈ ds, c.isDigit = true) :
    pyInt ds = some ((digitsVal ds : Int)) := by
  have hstrip : pyStrip ds = ds :=
    pyStrip_no_ws (fun c hc => digit_not_ws c (h2 c hc))
  unfold pyInt
  rw [hstrip]
  cases ds with
  | nil => exact absurd rfl h1
  | cons c cs =>
    have hc : c.isDigit = true := h2 c (List.mem_cons_self c cs)
    have hcm : c ≠ '-' := fun he => by rw [he] at hc; exact absurd hc (by decide)
    have hcp : c ≠ '+' := fun he => by rw [he] at hc; exact absurd hc (by decide)
    have hall : (c :: cs).all Char.isDigit = true := List.all_eq_true.mpr h2
    simp [hcm, hcp, hall]

theorem specUnitWord_props (u : List Char) (h : specUnitWord u = true) :
    u ≠ [] ∧ (∀ c ∈ u, c.isWhitespace = false) ∧ (∀ c ∈ u, c.toLower = c) ∧
    (rstripS u = "minute".toList ∨ rstripS u = "hour".toList ∨ rstripS u = "day".toList) := by
  simp only [specUnitWord, Bool.or_eq_true, decide_eq_true_eq] at h
  rcases h with ((((h | h) | h) | h) | h) | h <;> subst h <;>
    exact ⟨by decide, by decide, by decide, by decide⟩

/-- Evaluation of `_create_repeat_trigger` on any `every`-family
pattern made of the lowercase word `every`, a space, a nonempty block of
digits, a space, and a lowercase unit word. -/
theorem createRepeatTrigger_every (ds u : List Char) (t : PyDateTime)
    (hds_ne : ds ≠ []) (hds_dig : ∀ c ∈ ds, c.isDigit = true)
    (hu_ne : u ≠ []) (hu_nws : ∀ c ∈ u, c.isWhitespace = false)
    (hu_low : ∀ c ∈ u, c.toLower = c) :
    createRepeatTrigger ("every ".toList ++ ds ++ ' ' :: u) t =
      (if rstripS u = "minute".toList then
        Trigger.interval TUnit.minute (digitsVal ds) (some t)
       else if rstripS u = "hour".toList then
        Trigger.interval TUnit.hour (digitsVal ds) (some t)
       else if rstripS u = "day".toList then
        Trigger.interval TUnit.day (digitsVal ds) (some t)
       else Trigger.date t) := by
  have hlowc : ∀ c ∈ ("every ".toList ++ ds ++ ' ' :: u), c.toLower = c := by
    intro c hc
    rcases List.mem_append.mp hc with hc | hc
    · rcases List.mem_append.mp hc with hc | hc
      · fin_cases hc <;> decide
      · exact toLower_digit c (hds_dig c hc)
    · rcases List.mem_cons.mp hc with rfl | hc
      · decide
      · exact hu_low c hc
  have hlow : pyLower ("every ".toList ++ ds ++ ' ' :: u) = "every ".toList ++ ds ++ ' ' :: u := by
    unfold pyLower
    calc ("every ".toList ++ ds ++ ' ' :: u).map Char.toLower
        = ("every ".toList ++ ds ++ ' ' :: u).map id := List.map_congr_left hlowc
      _ = _ := List.map_id _
  have hsplit : pySplit ("every ".toList ++ ds ++ ' ' :: u) = ["every".toList, ds, u] := by
    have heq : "every ".toList ++ ds ++ ' ' :: u = "every".toList ++ ' ' :: (ds ++ ' ' :: u) := rfl
    rw [heq, pySplit_token_space "every".toList _ (by decide) (by decide),
        pySplit_token_space ds _ hds_ne (fun c hc => digit_not_ws c (hds_dig c hc)),
        pySplit_token u hu_ne hu_nws]
  have hN1 : ¬("every ".toList ++ ds ++ ' ' :: u = "daily".toList) := by
    intro hco
    injection hco with h1 _
    exact absurd h1 (by decide)
  have hN2 : ¬("every ".toList ++ ds ++ ' ' :: u = "weekly".toList) := by
    intro hco
    injection hco with h1 _
    exact absurd h1 (by decide)
  have hN3 : ¬("every ".toList ++ ds ++ ' ' :: u = "monthly".toList) := by
    intro hco
    injection hco with h1 _
    exact absurd h1 (by decide)
  have hPre : "every".toList.isPrefixOf ("every ".toList ++ ds ++ ' ' :: u) = true := rfl
  simp only [createRepeatTrigger]
  rw [hlow, if_neg hN1, if_neg hN2, if_neg hN3, if_pos hPre, hsplit]
  show (match pyInt ds with
        | none => Trigger.date t
        | some n =>
          if rstripS u = "minute".toList then Trigger.interval TUnit.minute n (some t)
          else if rstripS u = "hour".toList then Trigger.interval TUnit.hour n (some t)
          else if rstripS u = "day".toList then Trigger.interval TUnit.day n (some t)
          else Trigger.date t) = _
  rw [pyInt_digits ds hds_ne hds_dig]

/-! ## C7 — unrecognized patterns fall back to one-shot -/

/-- C7, counterexample.  The claim quantifies over every pattern that is
not `daily`/`weekly`/`monthly` and not a well-formed
`every N minute|hour|day(s)` expression.  The code's parser tests only
`startswith("every")`, so `"everyx 2 minutes"` — not a well-formed
expression — still receives a recurring interval trigger rather than the
claimed one-shot fallback. -/
theorem fallback_c7_counterexample :
    specRecurring "everyx 2 minutes".toList = false ∧
    createRepeatTrigger "everyx 2 minutes".toList ⟨0, 10, 30, 0, 0⟩
      = Trigger.interval TUnit.minute 2 (some ⟨0, 10, 30, 0, 0⟩) ∧
    createRepeatTrigger "everyx 2 minutes".toList ⟨0, 10, 30, 0, 0⟩
      ≠ Trigger.date ⟨0, 10, 30, 0, 0⟩ := by
  exact ⟨by decide, by decide, by decide⟩

/-- C7, amended: every pattern outside the set the code's parser
accepts — lowercase `daily`/`weekly`/`monthly`, or a lowercase string
starting with `every` whose whitespace-split form has an integer second
token and a third token equal to `minute`/`hour`/`day` after stripping
trailing `'s'`s (a strict superset of the well-formed
`every N minute|hour|day(s)` family) — falls back to a one-shot
`DateTrigger` at `target_time`, and no pattern is dropped; every
well-formed `every N minute|hour|day(s)` expression does receive an
interval trigger. -/
theorem fallback_c7_amended :
    ∀ (p : List Char) (t : PyDateTime),
      (codeAcceptsPattern p = false → createRepeatTrigger p t = Trigger.date t) ∧
      (specWellFormedEvery p = true →
        ∃ (u : TUnit) (n : Int), createRepeatTrigger p t = Trigger.interval u n (some t)) := by
  intro p t
  constructor
  · intro h
    simp only [codeAcceptsPattern, Bool.or_eq_false_iff, decide_eq_false_iff_not] at h
    obtain ⟨⟨⟨h1, h2⟩, h3⟩, h4⟩ := h
    unfold createRepeatTrigger
    rw [if_neg h1, if_neg h2, if_neg h3]
    rcases hand : "every".toList.isPrefixOf (pyLower p) with _ | _
    · rfl
    · rw [hand] at h4
      simp only [Bool.true_and] at h4
      rw [if_pos rfl]
      rcases hsp : pySplit (pyLower p) with _ | ⟨t1, _ | ⟨t2, _ | ⟨t3, rest⟩⟩⟩ <;>
        rw [hsp] at h4
      case _ =>
        show (match pyInt t2 with
              | none => Trigger.date t
              | some n =>
                if rstripS t3 = "minute".toList then Trigger.interval TUnit.minute n (some t)
                else if rstripS t3 = "hour".toList then Trigger.interval TUnit.hour n (some t)
                else if rstripS t3 = "day".toList then Trigger.interval TUnit.day n (some t)
                else Trigger.date t) = Trigger.date t
        have h4' : ((pyInt t2).isSome &&
            (decide (rstripS t3 = "minute".toList) || decide (rstripS t3 = "hour".toList) ||
             decide (rstripS t3 = "day".toList))) = false := h4
        rcases hint : pyInt t2 with _ | n
        · rfl
        · rw [hint] at h4'
          simp only [Option.isSome_some, Bool.true_and, Bool.or_eq_false_iff,
            decide_eq_false_iff_not] at h4'
          obtain ⟨⟨hu1, hu2⟩, hu3⟩ := h4'
          show (if rstripS t3 = "minute".toList then Trigger.interval TUnit.minute n (some t)
                else if rstripS t3 = "hour".toList then Trigger.interval TUnit.hour n (some t)
                else if rstripS t3 = "day".toList then Trigger.interval TUnit.day n (some t)
                else Trigger.date t) = Trigger.date t
          rw [if_neg hu1, if_neg hu2, if_neg hu3]
  · intro hp
    unfold specWellFormedEvery at hp
    split at hp
    case _ rest =>
      rw [Bool.and_eq_true] at hp
      obtain ⟨hne, hmatch⟩ := hp
      split at hmatch
      case _ u heq =>
        obtain ⟨hu_ne, hu_nws, hu_low, hu_rs⟩ := specUnitWord_props u hmatch
        have hds_ne : rest.takeWhile Char.isDigit ≠ [] := by
          intro h0
          rw [h0] at hne
          exact absurd hne (by decide)
        have hds_dig : ∀ c ∈ rest.takeWhile Char.isDigit, c.isDigit = true :=
          fun c hc => List.mem_takeWhile_imp hc
        have h1 : rest.takeWhile Char.isDigit ++ ' ' :: u = rest := by
          conv_rhs => rw [← List.takeWhile_append_dropWhile (p := Char.isDigit) (l := rest)]
          rw [heq]
        have hrest : ('e' :: 'v' :: 'e' :: 'r' :: 'y' :: ' ' :: rest : List Char)
            = "every ".toList ++ rest.takeWhile Char.isDigit ++ ' ' :: u := by
          calc ('e' :: 'v' :: 'e' :: 'r' :: 'y' :: ' ' :: rest : List Char)
              = "every ".toList ++ rest := rfl
            _ = "every ".toList ++ (rest.takeWhile Char.isDigit ++ ' ' :: u) := by rw [h1]
        rw [hrest, createRepeatTrigger_every _ u t hds_ne hds_dig hu_ne hu_nws hu_low]
        rcases hu_rs with hrs | hrs | hrs
        · exact ⟨TUnit.minute, digitsVal (rest.takeWhile Char.isDigit), by rw [hrs]; simp⟩
        · exact ⟨TUnit.hour, digitsVal (rest.takeWhile Char.isDigit), by rw [hrs]; simp⟩
        · exact ⟨TUnit.day, digitsVal (rest.takeWhile Char.isDigit), by rw [hrs]; simp⟩
      case _ => exact absurd hmatch (by simp)
    case _ => exact absurd hp (by simp)

/-- C7, witness for the amended theorem: the unrecognized pattern
`yearly` falls back to a one-shot trigger, and the well-formed
`every 3 days` receives an interval trigger. -/
theorem fallback_c7_witness :
    createRepeatTrigger "yearly".toList ⟨1, 0, 0, 0, 0⟩ = Trigger.date ⟨1, 0, 0, 0, 0⟩ ∧
    createRepeatTrigger "every 3 days".toList ⟨1, 0, 0, 0, 0⟩
      = Trigger.interval TUnit.day 3 (some ⟨1, 0, 0, 0, 0⟩) := by
  refine ⟨(fallback_c7_amended "yearly".toList ⟨1, 0, 0, 0, 0⟩).1 (by decide), ?_⟩
  decide

/-! ## C8 — owner listings -/

/-- C8, counterexample.  The claim says a completed reminder never
appears in the listing.  `DatabaseManager.complete_reminder` leaves
`is_active = 1`, and `SchedulerManager.get_user_reminders` filters only
on `is_active`, so a completed one-shot reminder still appears in that
listing. -/
theorem listing_c8_counterexample :
    completedReminder.is_completed = true ∧ completedReminder.is_active = true ∧
    (completedReminder, "not_scheduled")
      ∈ schedGetUserReminders (freshManager [completedReminder] 2) 7 := by
  refine ⟨rfl, rfl, ?_⟩
  decide

/-- C8, amended: the store-level listing
`DatabaseManager.get_user_reminders(uid, active_only = true)` returns
exactly the owner's active, non-completed reminders ordered by target
time ascending; the scheduler-level listing
`SchedulerManager.get_user_reminders(uid)` filters only on `is_active`
(so a completed but still-active reminder does appear there), also
ordered by target time ascending and decorated with the job status. -/
theorem listing_c8_amended :
    (∀ (store : List Reminder) (uid : Nat),
      (∀ r : Reminder, r ∈ dbGetUserReminders store uid true ↔
        (r ∈ store ∧ r.user_id = uid ∧ r.is_active = true ∧ r.is_completed = false)) ∧
      sortedByTime (dbGetUserReminders store uid true)) ∧
    (∀ (st : SchedState) (uid : Nat) (r : Reminder) (s : String),
      ((r, s) ∈ schedGetUserReminders st uid ↔
        (r ∈ st.store ∧ r.user_id = uid ∧ r.is_active = true ∧ s = jobStatus st.jobs r.id)) ∧
      sortedByTime ((schedGetUserReminders st uid).map Prod.fst)) := by
  constructor
  · intro store uid
    constructor
    · intro r
      unfold dbGetUserReminders
      rw [mem_sortByTime, List.mem_filter]
      simp only [Bool.not_true, Bool.false_or, Bool.and_eq_true, decide_eq_true_eq,
        Bool.not_eq_true']
    · exact sortedByTime_sortByTime _
  · intro st uid r s
    constructor
    · unfold schedGetUserReminders
      rw [List.mem_map]
      constructor
      · rintro ⟨a, ha, heq⟩
        obtain ⟨h1, h2⟩ := Prod.mk.injEq .. ▸ heq
        subst h1
        have hm := List.mem_filter.mp (mem_sortByTime.mp ha)
        simp only [Bool.and_eq_true, decide_eq_true_eq] at hm
        exact ⟨hm.1, hm.2.1, hm.2.2, h2.symm⟩
      · rintro ⟨hmem, huid, hact, hstat⟩
        refine ⟨r, mem_sortByTime.mpr (List.mem_filter.mpr ⟨hmem, ?_⟩), by rw [hstat]⟩
        simp [huid, hact]
    · unfold schedGetUserReminders
      rw [List.map_map]
      have : (Prod.fst ∘ fun r : Reminder => (r, jobStatus st.jobs r.id)) = id := rfl
      rw [this, List.map_id]
      exact sortedByTime_sortByTime _

/-! ## Evaluation facts for the claim families of the Time Resolver

`renderClock pad h m pm` ranges over every `HH:MM(am|pm)` expression
(hour 1-12, optionally zero-padded, minute 0-59) and `renderToday` over
every `today at HH:MM(am|pm)` expression.  The families are finite, so
the behaviour of the scanner, `strptime`, and the substring tests on
them is settled by kernel evaluation over all 2880 members. -/

theorem clockFacts1 : ∀ (pad pm : Bool), ∀ h < 13, ∀ m < 60, 1 ≤ h →
    pyStrip (pyLower (renderClock pad h m pm)) = renderClock pad h m pm := by decide

theorem clockFacts2 : ∀ (pad pm : Bool), ∀ h < 13, ∀ m < 60, 1 ≤ h →
    (renderClock pad h m pm).isEmpty = false := by decide

theorem clockFacts3 : ∀ (pad pm : Bool), ∀ h < 13, ∀ m < 60, 1 ≤ h →
    pyContains (renderClock pad h m pm) "today".toList = false := by decide

theorem clockFacts4 : ∀ (pad pm : Bool), ∀ h < 13, ∀ m < 60, 1 ≤ h →
    pyContains (renderClock pad h m pm) "tomorrow".toList = false := by decide

theorem clockFacts5 : ∀ (pad pm : Bool), ∀ h < 13, ∀ m < 60, 1 ≤ h →
    searchTime (renderClock pad h m pm) = some (renderClock pad h m pm) := by decide

theorem clockFacts6 : ∀ (pad pm : Bool), ∀ h < 13, ∀ m < 60, 1 ≤ h →
    timeFromMatch (renderClock pad h m pm) = some (hour24 h pm, m) := by decide

theorem todayFacts1 : ∀ (pad pm : Bool), ∀ h < 13, ∀ m < 60, 1 ≤ h →
    pyStrip (pyLower (renderToday pad h m pm)) = renderToday pad h m pm := by decide

theorem todayFacts2 : ∀ (pad pm : Bool), ∀ h < 13, ∀ m < 60, 1 ≤ h →
    (renderToday pad h m pm).isEmpty = false := by decide

theorem todayFacts3 : ∀ (pad pm : Bool), ∀ h < 13, ∀ m < 60, 1 ≤ h →
    pyContains (renderToday pad h m pm) "today".toList = true := by decide

theorem todayFacts4 : ∀ (pad pm : Bool), ∀ h < 13, ∀ m < 60, 1 ≤ h →
    searchTime (renderToday pad h m pm) = some (renderClock pad h m pm) := by decide

/-! ## C3 — bare clock times resolve to today, rolling forward -/

/-- C3, confirmed.  For every expression `HH:MM(am|pm)` (no day
qualifier) and every `now`, the resolver returns today (now's date) at
that clock time when that moment is still ahead, and exactly one day
later — same clock time — when that moment is `≤ now`.  In particular
`2:30pm` with `now` at 15:00 resolves to 14:30 of the next day (the
witness instantiates exactly that). -/
theorem resolver_clock_c3 :
    ∀ (pad pm : Bool) (h m : Nat) (now : PyDateTime), 1 ≤ h → h ≤ 12 → m < 60 →
      (dtLe (replaceHM now (hour24 h pm) m) now = false →
        parseTimeExpression (renderClock pad h m pm) now
          = some (replaceHM now (hour24 h pm) m)) ∧
      (dtLe (replaceHM now (hour24 h pm) m) now = true →
        parseTimeExpression (renderClock pad h m pm) now
          = some (addDays (replaceHM now (hour24 h pm) m) 1)) := by
  intro pad pm h m now h1 h2 h3
  have hlt : h < 13 := by omega
  have f1 := clockFacts1 pad pm h hlt m h3 h1
  have f2 := clockFacts2 pad pm h hlt m h3 h1
  have f3 := clockFacts3 pad pm h hlt m h3 h1
  have f4 := clockFacts4 pad pm h hlt m h3 h1
  have f5 := clockFacts5 pad pm h hlt m h3 h1
  have f6 := clockFacts6 pad pm h hlt m h3 h1
  have key : parseTimeExpression (renderClock pad h m pm) now
      = some (if dtLe (replaceHM now (hour24 h pm) m) now
              then addDays (replaceHM now (hour24 h pm) m) 1
              else replaceHM now (hour24 h pm) m) := by
    unfold parseTimeExpression
    rw [f2]
    simp only [Bool.false_eq_true, if_false, f1, f3, f4, f5, f6, Option.some_bind]
  refine ⟨fun hc => ?_, fun hc => ?_⟩ <;> rw [key, hc] <;> simp

/-- C3, witness: the spec's own example, `2:30pm` with `now` at 15:00,
resolves to 14:30 one day later. -/
theorem resolver_clock_c3_witness :
    dtLe (replaceHM ⟨0, 15, 0, 0, 0⟩ (hour24 2 true) 30) ⟨0, 15, 0, 0, 0⟩ = true ∧
    parseTimeExpression (renderClock false 2 30 true) ⟨0, 15, 0, 0, 0⟩
      = some (addDays (replaceHM ⟨0, 15, 0, 0, 0⟩ (hour24 2 true) 30) 1) :=
  ⟨by decide, (resolver_clock_c3 false true 2 30 ⟨0, 15, 0, 0, 0⟩ (by decide) (by decide)
    (by decide)).2 (by decide)⟩

/-! ## C4 — `today at HH:MM` never rolls forward -/

/-- C4, counterexample.  The claim says `today at HH:MM(am|pm)` still
rolls forward to tomorrow when the moment has passed.  The code's
`today` branch returns `now.replace(...)` with no rollover check:
`today at 2:30pm` with `now` at 15:00 resolves to today 14:30 — already
passed — not to tomorrow 14:30. -/
theorem resolver_today_c4_counterexample :
    parseTimeExpression "today at 2:30pm".toList ⟨0, 15, 0, 0, 0⟩ = some ⟨0, 14, 30, 0, 0⟩ ∧
    dtLe ⟨0, 14, 30, 0, 0⟩ ⟨0, 15, 0, 0, 0⟩ = true ∧
    parseTimeExpression "today at 2:30pm".toList ⟨0, 15, 0, 0, 0⟩ ≠ some ⟨1, 14, 30, 0, 0⟩ := by
  exact ⟨by decide, by decide, by decide⟩

/-- C4, amended: for every expression `today at HH:MM(am|pm)` and every
`now`, the resolver returns today (now's date) at that clock time
unconditionally — no roll-forward is applied even when that moment is
`≤ now`. -/
theorem resolver_today_c4_amended :
    ∀ (pad pm : Bool) (h m : Nat) (now : PyDateTime), 1 ≤ h → h ≤ 12 → m < 60 →
      parseTimeExpression (renderToday pad h m pm) now
        = some (replaceHM now (hour24 h pm) m) := by
  intro pad pm h m now h1 h2 h3
  have hlt : h < 13 := by omega
  have t1 := todayFacts1 pad pm h hlt m h3 h1
  have t2 := todayFacts2 pad pm h hlt m h3 h1
  have t3 := todayFacts3 pad pm h hlt m h3 h1
  have t4 := todayFacts4 pad pm h hlt m h3 h1
  have f6 := clockFacts6 pad pm h hlt m h3 h1
  unfold parseTimeExpression
  rw [t2]
  simp only [Bool.false_eq_true, if_false, t1, t3, if_true, t4, f6]

/-- C4, witness for the amended theorem: `today at 2:30pm` at 15:00
resolves to today 14:30. -/
theorem resolver_today_c4_witness :
    parseTimeExpression (renderToday false 2 30 true) ⟨0, 15, 0, 0, 0⟩
      = some (replaceHM ⟨0, 15, 0, 0, 0⟩ (hour24 2 true) 30) :=
  resolver_today_c4_amended false true 2 30 ⟨0, 15, 0, 0, 0⟩ (by decide) (by decide) (by decide)

/-! ## C5 — the resolver's own fallback -/

/-- C5, counterexample.  The claim says unsupported input yields a
`ResolutionError` (`None`) rather than a timestamp, any `now + 1 hour`
default being the caller's.  The code's final line is
`return now + timedelta(hours=1)`: on `"xyz"` the resolver itself
returns a timestamp, one hour ahead. -/
theorem resolver_default_c5_counterexample :
    parseTimeExpression "xyz".toList ⟨0, 15, 0, 0, 0⟩ = some (addHours ⟨0, 15, 0, 0, 0⟩ 1) ∧
    parseTimeExpression "xyz".toList ⟨0, 15, 0, 0, 0⟩ ≠ none := by
  exact ⟨by decide, by decide⟩

/-- C5, amended: for every nonempty input that matches none of the
supported forms (no `today`/`tomorrow` qualifier, no parsable clock
time, no relative expression), the resolver itself returns
`now + 1 hour` as its built-in default; only empty input yields `None`
(the error case the caller can detect). -/
theorem resolver_default_c5_amended :
    ∀ (s : List Char) (now : PyDateTime),
      parseTimeExpression [] now = none ∧
      (s ≠ [] →
        pyContains (pyStrip (pyLower s)) "today".toList = false →
        pyContains (pyStrip (pyLower s)) "tomorrow".toList = false →
        (searchTime (pyStrip (pyLower s))).bind timeFromMatch = none →
        searchRel (pyStrip (pyLower s)) = none →
        parseTimeExpression s now = some (addHours now 1)) := by
  intro s now
  refine ⟨rfl, fun hne h1 h2 h3 h4 => ?_⟩
  have hisE : s.isEmpty = false := by
    cases s with
    | nil => exact absurd rfl hne
    | cons a b => rfl
  unfold parseTimeExpression
  rw [hisE]
  simp only [Bool.false_eq_true, if_false, h1, h2, h3, h4]

/-- C5, witness for the amended theorem: empty input yields `None`,
and the unsupported `"xyz"` yields `now + 1 hour` from the resolver
itself. -/
theorem resolver_default_c5_witness :
    parseTimeExpression [] ⟨0, 15, 0, 0, 0⟩ = none ∧
    parseTimeExpression "xyz".toList ⟨0, 15, 0, 0, 0⟩ = some (addHours ⟨0, 15, 0, 0, 0⟩ 1) := by
  have h := resolver_default_c5_amended "xyz".toList ⟨0, 15, 0, 0, 0⟩
  exact ⟨h.1, h.2 (by decide) (by decide) (by decide) (by decide) (by decide)⟩

/-- C1, witness: the one-shot reminder in `twoReminderState` is
completed and its job removed on firing, while firing the daily one
changes nothing. -/
theorem fire_semantics_c1_witness :
    (executeReminder twoReminderState 2 = twoReminderState) ∧
    completeReminder (completeReminder twoReminderState.store 1) 1
      = completeReminder twoReminderState.store 1 := by
  have hdaily := (fire_semantics_c1 twoReminderState 2 dailyReminder (by decide)).2
    "daily".toList rfl (by decide)
  have hnone := (fire_semantics_c1 twoReminderState 1 pendingReminder (by decide)).1 rfl
  exact ⟨hdaily, hnone.2.2.2⟩

end Jarvis
